import Mathlib

/-!
# Verification development for the `text-sim` repository

Shallow embedding of the parts of `sim/tools/tools.py`, `sim/bert_base/__init__.py`
and `sim/tensorflow/layers.py` that the checked properties talk about, together
with theorems settling those properties.

Conventions used throughout:
* Python `dict`s are modelled as association lists `List (String × α)` with
  unique keys (a Python dict can never hold a duplicate key).
* Python `float` arithmetic is modelled over `ℚ`.
* Tensors are modelled as nested lists of rationals; shapes as `List ℕ`.
* Fallible Python code is modelled with `Option`/`Except`; calls into the
  standard library (`os`, `json`, `logging`, `datetime`) are modelled by
  Lean functions whose doc comments say which library call they stand for.
-/

set_option autoImplicit false

universe u v

/-- Python `dict` read access `d.get(k)` / `d[k]`, on the association-list model. -/
def lookupKey {α : Type u} (k : String) : List (String × α) → Option α
  | [] => none
  | (k', v) :: rest => if k' = k then some v else lookupKey k rest

/-- Python `dict` assignment `d[k] = v`: overwrite the entry in place if the key
is present, otherwise append a new entry at the end. -/
def setKey {α : Type u} : List (String × α) → String → α → List (String × α)
  | [], k, v => [(k, v)]
  | (k', v') :: rest, k, v =>
      if k' = k then (k, v) :: rest else (k', v') :: setKey rest k v

/-- Number of entries stored under key `k`. -/
def countKey {α : Type u} (k : String) (l : List (String × α)) : ℕ :=
  (l.map Prod.fst).count k

/-- Left-biased choice on `Option`, used to state lookup lemmas. -/
def orO {α : Type u} : Option α → Option α → Option α
  | some v, _ => some v
  | none, b => b

theorem lookupKey_setKey_self {α : Type u} (l : List (String × α)) (k : String) (v : α) :
    lookupKey k (setKey l k v) = some v := by
  induction l with
  | nil => simp [setKey, lookupKey]
  | cons hd tl ih =>
    obtain ⟨k', v'⟩ := hd
    by_cases h : k' = k
    · simp [setKey, h, lookupKey]
    · simp [setKey, h, lookupKey, ih]

theorem lookupKey_setKey_ne {α : Type u} (l : List (String × α)) (k k' : String) (v : α)
    (h : k' ≠ k) : lookupKey k (setKey l k' v) = lookupKey k l := by
  induction l with
  | nil => simp [setKey, lookupKey, h]
  | cons hd tl ih =>
    obtain ⟨k₀, v₀⟩ := hd
    by_cases h0 : k₀ = k'
    · subst h0
      simp [setKey, lookupKey, h]
    · simp only [setKey, if_neg h0, lookupKey]
      by_cases h1 : k₀ = k
      · simp [h1]
      · simp [h1, ih]

theorem lookupKey_eq_none_iff {α : Type u} (l : List (String × α)) (k : String) :
    lookupKey k l = none ↔ k ∉ l.map Prod.fst := by
  induction l with
  | nil => simp [lookupKey]
  | cons hd tl ih =>
    obtain ⟨k', v'⟩ := hd
    by_cases h : k' = k
    · simp [lookupKey, h]
    · simp [lookupKey, h, ih, Ne.symm h]

theorem mem_map_fst_setKey {α : Type u} (l : List (String × α)) (k a : String) (v : α) :
    a ∈ (setKey l k v).map Prod.fst ↔ a ∈ l.map Prod.fst ∨ a = k := by
  induction l with
  | nil => simp [setKey]
  | cons hd tl ih =>
    obtain ⟨k', v'⟩ := hd
    by_cases h : k' = k
    · subst h
      simp [setKey]
      tauto
    · simp [setKey, h, ih]
      tauto

theorem nodup_map_fst_setKey {α : Type u} (l : List (String × α)) (k : String) (v : α)
    (h : (l.map Prod.fst).Nodup) : ((setKey l k v).map Prod.fst).Nodup := by
  induction l with
  | nil => simp [setKey]
  | cons hd tl ih =>
    obtain ⟨k', v'⟩ := hd
    simp only [List.map_cons, List.nodup_cons] at h
    by_cases h0 : k' = k
    · subst h0
      simpa [setKey] using h
    · have := ih h.2
      simp only [setKey, if_neg h0, List.map_cons, List.nodup_cons]
      refine ⟨?_, this⟩
      rw [mem_map_fst_setKey]
      rintro (hmem | hmem)
      · exact h.1 hmem
      · exact h0 hmem

theorem countKey_setKey_self {α : Type u} (l : List (String × α)) (k : String) (v : α)
    (h : (l.map Prod.fst).Nodup) : countKey k (setKey l k v) = 1 := by
  induction l with
  | nil => simp [setKey, countKey]
  | cons hd tl ih =>
    obtain ⟨k', v'⟩ := hd
    simp only [List.map_cons, List.nodup_cons] at h
    by_cases h0 : k' = k
    · subst h0
      have hmem : k' ∉ tl.map Prod.fst := h.1
      simp [setKey, countKey, List.count_eq_zero_of_not_mem hmem]
    · have := ih h.2
      simp only [setKey, if_neg h0, countKey, List.map_cons] at *
      rw [List.count_cons_of_ne (fun hh => h0 hh.symm)]
      exact this

theorem setKey_setKey_self {α : Type u} (l : List (String × α)) (k : String) (v : α) :
    setKey (setKey l k v) k v = setKey l k v := by
  induction l with
  | nil => simp [setKey]
  | cons hd tl ih =>
    obtain ⟨k', v'⟩ := hd
    by_cases h : k' = k
    · simp [setKey, h]
    · simp [setKey, h, ih]

theorem lookupKey_of_perm {α : Type u} {l₁ l₂ : List (String × α)} (h : l₁.Perm l₂) :
    (l₁.map Prod.fst).Nodup → ∀ k, lookupKey k l₁ = lookupKey k l₂ := by
  induction h with
  | nil => intro _ k; rfl
  | cons x h ih =>
    intro hn k
    obtain ⟨kx, vx⟩ := x
    simp only [List.map_cons, List.nodup_cons] at hn
    by_cases hk : kx = k
    · simp [lookupKey, hk]
    · simp [lookupKey, hk, ih hn.2 k]
  | swap x y l =>
    intro hn k
    obtain ⟨kx, vx⟩ := x
    obtain ⟨ky, vy⟩ := y
    simp only [List.map_cons, List.nodup_cons, List.mem_cons] at hn
    have hxy : ky ≠ kx := fun hh => hn.1 (Or.inl hh)
    by_cases h1 : ky = k
    · subst h1
      simp [lookupKey, Ne.symm hxy]
    · by_cases h2 : kx = k
      · simp [lookupKey, h1, h2]
      · simp [lookupKey, h1, h2]
  | trans h₁ h₂ ih₁ ih₂ =>
    intro hn k
    have hn₂ := (((h₁.map Prod.fst).nodup_iff).mp hn)
    exact (ih₁ hn k).trans (ih₂ hn₂ k)

theorem lookupKey_foldl_setKey {α : Type u} (l : List (String × α)) :
    ∀ (init : List (String × α)), (l.map Prod.fst).Nodup → ∀ k,
      lookupKey k (l.foldl (fun acc kv => setKey acc kv.1 kv.2) init) =
        orO (lookupKey k l) (lookupKey k init) := by
  induction l with
  | nil => intro init _ k; simp [lookupKey, orO]
  | cons hd tl ih =>
    intro init hn k
    obtain ⟨k₀, v₀⟩ := hd
    simp only [List.map_cons, List.nodup_cons] at hn
    rw [List.foldl_cons]
    rw [ih (setKey init k₀ v₀) hn.2 k]
    by_cases hk : k₀ = k
    · subst hk
      have : lookupKey k₀ tl = none := (lookupKey_eq_none_iff tl k₀).mpr hn.1
      simp [lookupKey, this, orO, lookupKey_setKey_self]
    · simp [lookupKey, hk, lookupKey_setKey_ne _ _ _ _ hk]

/-- Insert one entry into a key-sorted association list (helper for the model of
`json.dumps(•, sort_keys=True)`). -/
def insertSorted {α : Type u} (le : String → String → Bool) (x : String × α) :
    List (String × α) → List (String × α)
  | [] => [x]
  | y :: ys => if le x.1 y.1 then x :: y :: ys else y :: insertSorted le x ys

/-- Sort an association list by key (insertion sort). -/
def sortByKey {α : Type u} (le : String → String → Bool) : List (String × α) → List (String × α)
  | [] => []
  | x :: xs => insertSorted le x (sortByKey le xs)

theorem insertSorted_perm {α : Type u} (le : String → String → Bool) (x : String × α) :
    ∀ l : List (String × α), (insertSorted le x l).Perm (x :: l)
  | [] => List.Perm.refl _
  | y :: ys => by
    by_cases h : le x.1 y.1
    · simp [insertSorted, h]
    · simp only [insertSorted, if_neg h]
      exact ((insertSorted_perm le x ys).cons y).trans (List.Perm.swap x y ys)

theorem sortByKey_perm {α : Type u} (le : String → String → Bool) :
    ∀ l : List (String × α), (sortByKey le l).Perm l
  | [] => List.Perm.refl _
  | x :: xs =>
    (insertSorted_perm le x (sortByKey le xs)).trans ((sortByKey_perm le xs).cons x)

/-! ## JSON values

`Value` models the JSON-serializable Python values that appear in the config
dictionaries of this repository: integers, floats (as exact rationals),
strings and booleans. -/

inductive Value : Type where
  | vInt (n : ℤ)
  | vRat (q : ℚ)
  | vStr (s : String)
  | vBool (b : Bool)
  deriving DecidableEq, Repr

/-- Decimal digits of a natural number, most significant first (fuel-bounded
division recursion; 30 digits are enough for every number in scope). -/
def natDigitsStr : ℕ → ℕ → List Char
  | 0, _ => []
  | fuel + 1, n =>
      if n < 10 then [Nat.digitChar n]
      else natDigitsStr fuel (n / 10) ++ [Nat.digitChar (n % 10)]

/-- Rendering of a Python `int`, as produced by `json.dumps`. -/
def intRender (n : ℤ) : String :=
  if n < 0 then "-" ++ String.mk (natDigitsStr 30 n.natAbs)
  else String.mk (natDigitsStr 30 n.natAbs)

/-- Digits after the decimal point, by long division of the remainder `r` by
`den` (fuel-bounded; terminates early on remainder 0). -/
def decimalFrac : ℕ → ℕ → ℕ → List Char
  | 0, _, _ => []
  | fuel + 1, r, den =>
      if r = 0 then []
      else Nat.digitChar (r * 10 / den) :: decimalFrac fuel (r * 10 % den) den

/-- Rendering of a Python `float` whose value is a short exact decimal, as
produced by `repr`/`json.dumps` (e.g. `0.1`, `0.02`). Models the CPython float
rendering on the decimal-representable values used in this repository. -/
def decimalString (q : ℚ) : String :=
  if q.den = 1 then intRender q.num
  else
    let n := q.num.natAbs
    let s := String.mk (natDigitsStr 30 (n / q.den)) ++ "." ++
      String.mk (decimalFrac 17 (n % q.den) q.den)
    if q.num < 0 then "-" ++ s else s

/-- JSON rendering of a single value (strings are assumed to need no escaping,
which holds for every string stored by this repository's configs). -/
def renderValue : Value → String
  | Value.vInt n => intRender n
  | Value.vRat q => decimalString q
  | Value.vStr s => "\"" ++ s ++ "\""
  | Value.vBool b => if b then "true" else "false"

/-- Code-point comparison of character lists (the order Python `sorted` uses on
`str` keys). -/
def charListLe : List Char → List Char → Bool
  | [], _ => true
  | _ :: _, [] => false
  | a :: as, b :: bs =>
      if a.toNat < b.toNat then true
      else if b.toNat < a.toNat then false
      else charListLe as bs

/-- String comparison by code points, the key order of
`json.dumps(•, sort_keys=True)`. -/
def strLe (a b : String) : Bool := charListLe a.data b.data

/-- Model of `json.dumps(d, ensure_ascii=False, indent=2, sort_keys=True)` from
the Python standard library: keys sorted, each entry on its own line indented by
two spaces. -/
def json_dumps (d : List (String × Value)) : String :=
  match sortByKey strLe d with
  | [] => "\x7b\x7d"
  | es =>
      "\x7b\n" ++
        String.intercalate ",\n"
          (es.map (fun kv => "  \"" ++ kv.1 ++ "\": " ++ renderValue kv.2)) ++
      "\n\x7d"

/-! ## `sim/bert_base/__init__.py`: `BertConfig`

A `BertConfig` instance is its `__dict__`: an association list from attribute
names to values, in attribute-assignment order. -/

/-- The `__dict__` produced by `BertConfig(vocab_size=0)`: the eleven attributes
set by `BertConfig.__init__`, in the source's assignment order, with the
constructor's default values (`__init__`, `sim/bert_base/__init__.py` lines
47-57). -/
def BertConfig.base : List (String × Value) :=
  [("vocab_size", Value.vInt 0),
   ("hidden_size", Value.vInt 768),
   ("num_hidden_layers", Value.vInt 12),
   ("num_attention_heads", Value.vInt 12),
   ("hidden_act", Value.vStr "gelu"),
   ("intermediate_size", Value.vInt 3072),
   ("hidden_dropout_prob", Value.vRat (mkRat 1 10)),
   ("attention_prob_dropout_prob", Value.vRat (mkRat 1 10)),
   ("max_position_embeddings", Value.vInt 512),
   ("type_vocab_size", Value.vInt 2),
   ("initializer_range", Value.vRat (mkRat 1 50))]

/-- `BertConfig.from_dict`: build `BertConfig(vocab_size=0)` and then write every
item of the input dict into its `__dict__` (source lines 59-69). -/
def BertConfig.from_dict (json_obj : List (String × Value)) : List (String × Value) :=
  json_obj.foldl (fun acc kv => setKey acc kv.1 kv.2) BertConfig.base

/-- `BertConfig.to_dict`: `copy.deepcopy(self.__dict__)` — the identity on the
pure value model (source lines 80-82). -/
def BertConfig.to_dict (c : List (String × Value)) : List (String × Value) := c

/-- `BertConfig.to_json_string`:
`json.dumps(self.to_dict(), indent=2, sort_keys=True)` (source lines 84-86). -/
def BertConfig.to_json_string (c : List (String × Value)) : String :=
  json_dumps (BertConfig.to_dict c)

/-- Modelled from the Python `json` standard library (code external to this
repository): `json.loads` applied to `json.dumps(d, indent=2, sort_keys=True)`
returns a dict holding exactly the entries of `d`, iterated in sorted key
order. -/
def json_loads_of_dumps (d : List (String × Value)) : List (String × Value) :=
  sortByKey strLe d

/-! ## `sim/tools/tools.py`: model-config persistence -/

/-- A wall-clock instant, as consumed by `datetime.strftime`. -/
structure DateTime where
  year : ℕ
  month : ℕ
  day : ℕ
  hour : ℕ
  minute : ℕ
  second : ℕ
  deriving DecidableEq, Repr

/-- Two-digit zero-padded decimal field (`%m`, `%d`, `%H`, `%M`, `%S`). -/
def pad2 (n : ℕ) : String :=
  String.mk [Nat.digitChar (n / 10 % 10), Nat.digitChar (n % 10)]

/-- Four-digit zero-padded decimal field (`%Y`). -/
def pad4 (n : ℕ) : String :=
  String.mk [Nat.digitChar (n / 1000 % 10), Nat.digitChar (n / 100 % 10),
    Nat.digitChar (n / 10 % 10), Nat.digitChar (n % 10)]

/-- Modelled from the Python standard library (external to this repository):
`datetime.strftime("%Y-%m-%d %H:%M:%S")`. -/
def strftimeYmdHMS (t : DateTime) : String :=
  pad4 t.year ++ "-" ++ pad2 t.month ++ "-" ++ pad2 t.day ++ " " ++
    pad2 t.hour ++ ":" ++ pad2 t.minute ++ ":" ++ pad2 t.second

/-- Errors raised by the Python code or the standard library calls it makes. -/
inductive PyErr : Type where
  | valueError
  | fileNotFound
  deriving DecidableEq, Repr

/-- Observable state of the JSON config file at `config_path`:
* `absent` — `os.path.exists` is false;
* `empty` — the file exists with size 0;
* `corrupt` — the file exists, is non-empty, and `json.load` raises on it;
* `entries es` — the file parses to the JSON object `es`
  (a dict mapping config keys to model-config dicts). -/
inductive ConfigFile : Type where
  | absent
  | empty
  | corrupt
  | entries (es : List (String × List (String × Value)))
  deriving DecidableEq, Repr

/-- The dict `json.load` yields for the branch of `save_model_config` that
reaches the write: `{}` when the file is absent or has size 0, the parsed
object otherwise. -/
def ConfigFile.entriesOf : ConfigFile → List (String × List (String × Value))
  | ConfigFile.entries es => es
  | _ => []

/-- `get_model_config(key, config_path)` (`sim/tools/tools.py` lines 181-194):
raise `FileNotFoundError` when `os.path.exists(config_path)` is false; then
`try: return json.load(file).get(key, {}) except: return {}` — an unreadable or
unparseable file (including an empty one, on which `json.load` raises) yields
the empty dict, as does a missing key. -/
def get_model_config (key : String) (f : ConfigFile) :
    Except PyErr (List (String × Value)) :=
  match f with
  | ConfigFile.absent => Except.error PyErr.fileNotFound
  | ConfigFile.empty => Except.ok []
  | ConfigFile.corrupt => Except.ok []
  | ConfigFile.entries es => Except.ok ((lookupKey key es).getD [])

/-- `save_model_config(key, model_desc, model_config, config_path)`
(`sim/tools/tools.py` lines 156-178), as a function of the file state and the
current time. Returns the boolean result, the new file state and the
`model_config` dict as the caller observes it afterwards (the Python code
mutates its argument in place).

* When the file exists, is non-empty and `json.load` raises (`corrupt`), the
  exception is swallowed: result `False`, file and argument untouched.
* Otherwise the loaded dict (`{}` for an absent or empty file) gets
  `config_json[key] = model_config` after the in-place updates
  `model_config["execute_time"] = now.strftime(...)` and
  `model_config["model_desc"] = model_desc`, and is written back. -/
def save_model_config (key model_desc : String) (model_config : List (String × Value))
    (now : DateTime) (f : ConfigFile) :
    Bool × ConfigFile × List (String × Value) :=
  match f with
  | ConfigFile.corrupt => (false, ConfigFile.corrupt, model_config)
  | _ =>
      let config_json := f.entriesOf
      let model_config :=
        setKey (setKey model_config "execute_time" (Value.vStr (strftimeYmdHMS now)))
          "model_desc" (Value.vStr model_desc)
      (true, ConfigFile.entries (setKey config_json key model_config), model_config)

/-! ## `sim/tools/tools.py`: logger factory -/

/-- State of one `logging.FileHandler`. -/
structure FileHandlerState where
  filename : String
  mode : String
  encoding : String
  level : ℕ
  fmt : String
  deriving DecidableEq, Repr

/-- State of one logger in the process-wide `logging` registry. -/
structure LoggerState where
  level : ℕ
  propagate : Bool
  handlers : List FileHandlerState
  deriving DecidableEq, Repr

/-- Process-wide state touched by `get_logger`: the set of existing directories
and the `logging` module's logger registry. -/
structure LogWorld where
  dirs : List String
  loggers : List (String × LoggerState)
  deriving DecidableEq, Repr

/-- Modelled from `os.path.dirname` (external to this repository) for the
relative paths this code is used with: everything before the last `/`, and `""`
when the path holds no `/`. -/
def dirname (p : String) : String :=
  (dirnameAux p.data).map String.mk |>.getD ""
where
  /-- Characters before the last slash, `none` when there is no slash. -/
  dirnameAux : List Char → Option (List Char)
    | [] => none
    | c :: rest =>
        match dirnameAux rest with
        | some tail => some (c :: tail)
        | none => if c = '/' then some [] else none

/-- Modelled from Python `str.endswith` (external to this repository). -/
def strEndsWith (s suffix : String) : Bool :=
  decide (suffix.data.length ≤ s.data.length) &&
    decide (s.data.drop (s.data.length - suffix.data.length) = suffix.data)

/-- `logging.INFO`. -/
def LOGGING_INFO : ℕ := 20

/-- The logger state returned by the non-raising path of `get_logger`
(`sim/tools/tools.py` lines 142-151): `logging.getLogger(name)` looks the name
up in the process-wide registry (creating a fresh handler-less logger when the
name is new), then `propagate = False` and the level are set, and—only when the
logger has no handlers yet—one `FileHandler` (file path, mode, encoding, level
`logging.INFO`, the formatter) is created, configured and attached. -/
def loggerAfter (name file_path : String) (level : ℕ) (mode encoding fmt : String)
    (w : LogWorld) : LoggerState :=
  if ((lookupKey name w.loggers).getD ⟨0, true, []⟩).handlers = [] then
    ⟨level, false, ((lookupKey name w.loggers).getD ⟨0, true, []⟩).handlers ++
      [⟨file_path, mode, encoding, LOGGING_INFO, fmt⟩]⟩
  else
    ⟨level, false, ((lookupKey name w.loggers).getD ⟨0, true, []⟩).handlers⟩

/-- The logger body shared by every non-raising path of `get_logger`
(`sim/tools/tools.py` lines 142-153): the configured logger is stored back in
the registry and returned. -/
def getLoggerCore (name file_path : String) (level : ℕ) (mode encoding fmt : String)
    (w : LogWorld) : Except PyErr LoggerState × LogWorld :=
  (Except.ok (loggerAfter name file_path level mode encoding fmt w),
   ⟨w.dirs, setKey w.loggers name (loggerAfter name file_path level mode encoding fmt w)⟩)

/-- `get_logger(name, file_path, level, mode, encoding, formatter)`
(`sim/tools/tools.py` lines 121-153):

* `if file_path and not file_path.endswith(".log"): raise ValueError` — note
  the truthiness test: the empty path skips the check;
* `if not os.path.exists(os.path.dirname(file_path)): os.mkdir(...)`, where
  `os.mkdir` (modelled from the standard library) raises `FileNotFoundError`
  when its argument is empty or the argument's own parent is missing;
* then the registry/handler logic of `getLoggerCore`. -/
def get_logger (name file_path : String) (level : ℕ) (mode encoding fmt : String)
    (w : LogWorld) : Except PyErr LoggerState × LogWorld :=
  if file_path ≠ "" ∧ strEndsWith file_path ".log" = false then
    (Except.error PyErr.valueError, w)
  else if dirname file_path ∈ w.dirs then
    getLoggerCore name file_path level mode encoding fmt w
  else if dirname file_path = "" ∨
      (dirname (dirname file_path) ≠ "" ∧ dirname (dirname file_path) ∉ w.dirs) then
    (Except.error PyErr.fileNotFound, w)
  else
    getLoggerCore name file_path level mode encoding fmt
      ⟨dirname file_path :: w.dirs, w.loggers⟩

/-! ## `sim/tensorflow/layers.py`: `PositionEmbedding` -/

/-- The `hierarchical` constructor argument of `PositionEmbedding`: Python
`None`/`False`, Python `True`, or a numeric factor. -/
inductive Hierarchical : Type where
  | off
  | tru
  | factor (a : ℚ)
  deriving DecidableEq, Repr

/-- Python truthiness of the `hierarchical` attribute, as tested by
`if self.hierarchical:` (a numeric 0.0 is falsy). -/
def Hierarchical.truthy : Hierarchical → Bool
  | Hierarchical.off => false
  | Hierarchical.tru => true
  | Hierarchical.factor a => decide (a ≠ 0)

/-- `alpha = 0.4 if self.hierarchical is True else self.hierarchical`
(`sim/tensorflow/layers.py` line 67). The `off` case never reaches this
expression; it is mapped to 0. -/
def Hierarchical.alphaOf : Hierarchical → ℚ
  | Hierarchical.off => 0
  | Hierarchical.tru => mkRat 2 5
  | Hierarchical.factor a => a

/-- Configuration of a `PositionEmbedding` layer (constructor arguments stored
by `__init__`, `sim/tensorflow/layers.py` lines 23-45). -/
structure PositionEmbedding where
  input_dim : ℕ
  output_dim : ℕ
  merge_mode : String
  hierarchical : Hierarchical
  custom_position_ids : Bool
  deriving DecidableEq, Repr

/-- Vector sum. -/
def vadd (a b : List ℚ) : List ℚ := List.zipWith (· + ·) a b

/-- Vector difference. -/
def vsub (a b : List ℚ) : List ℚ := List.zipWith (· - ·) a b

/-- Scalar multiple of a vector. -/
def smul (c : ℚ) (v : List ℚ) : List ℚ := v.map (fun x => c * x)

/-- Elementwise division of a vector by a scalar. -/
def vdiv (v : List ℚ) (c : ℚ) : List ℚ := v.map (fun x => x / c)

/-- The embedding vector `PositionEmbedding.call` associates to one position id
`p` (`sim/tensorflow/layers.py` lines 66-75): when `self.hierarchical` is
truthy, rebuild the table as `(self.embeddings - alpha * self.embeddings[:1])
/ (1 - alpha)` and gather it at `p // input_dim` and `p % input_dim`, combining
the two rows as `alpha * x + (1 - alpha) * y`; otherwise gather the raw table at
`p`. `tf.gather` with an out-of-range index is an error, modelled by `none`. -/
def PositionEmbedding.posEmbedding (pe : PositionEmbedding) (E : List (List ℚ)) (p : ℕ) :
    Option (List ℚ) :=
  if pe.hierarchical.truthy then
    let alpha := pe.hierarchical.alphaOf
    let embeddings := E.map (fun row => vdiv (vsub row (smul alpha (E.headD []))) (1 - alpha))
    match embeddings[p / pe.input_dim]?, embeddings[p % pe.input_dim]? with
    | some x, some y => some (vadd (smul alpha x) (smul (1 - alpha) y))
    | _, _ => none
  else
    E[p]?

/-- Written from the spec's words, for comparison with the source: row `i` of
the re-derived table `(E - alpha * E[0]) / (1 - alpha)`. -/
def hierSpecRow (alpha : ℚ) (E : List (List ℚ)) (i : ℕ) : List ℚ :=
  vdiv (vsub (E.getD i []) (smul alpha (E.headD []))) (1 - alpha)

/-- `PositionEmbedding.call` for the default path (`custom_position_ids` false,
`hierarchical` falsy; `sim/tensorflow/layers.py` lines 62-64 and 73-88):
positions are `0..seq_len`, the table is sliced to `self.embeddings[None,
:seq_len]` — shape `(1, seq_len, output_dim)` — and merged with the
`(batch, seq_len, output_dim)` input according to `merge_mode`. TensorFlow
broadcasting of the leading 1-dimension is modelled by mapping the single
embedding matrix over the batch. -/
def PositionEmbedding.call (pe : PositionEmbedding) (E : List (List ℚ))
    (inputs : List (List (List ℚ))) : List (List (List ℚ)) :=
  if pe.merge_mode = "add" then
    inputs.map (fun m =>
      List.zipWith (List.zipWith (· + ·)) m (E.take (inputs.headD []).length))
  else if pe.merge_mode = "mul" then
    inputs.map (fun m =>
      List.zipWith (List.zipWith (· * ·)) m
        ((E.take (inputs.headD []).length).map (fun row => row.map (fun x => x + 1))))
  else if pe.merge_mode = "zero" then
    [E.take (inputs.headD []).length]
  else
    List.zipWith (fun m em => List.zipWith (fun row er => row ++ er) m em) inputs
      (List.replicate inputs.length (E.take (inputs.headD []).length))

/-- Entry `(b, s)` of a rank-3 tensor, as an `Option`. -/
def row3 (t : List (List (List ℚ))) (b s : ℕ) : Option (List ℚ) :=
  t[b]?.bind (fun m => m[s]?)

/-! ## `sim/tensorflow/layers.py`: `BertSelfAttention` -/

/-- Attribute state of `BertSelfAttention` after `__init__`
(`sim/tensorflow/layers.py` lines 221-249). -/
structure BertSelfAttention where
  num_heads : ℕ
  head_size : ℕ
  batch_size : ℕ
  attention_dropout : ℚ
  use_bias : Bool
  key_size : ℕ
  hidden_size : ℕ
  deriving DecidableEq, Repr

/-- `BertSelfAttention.__init__`: `key_size = key_size if key_size is not None
else head_size` and `hidden_size = hidden_size if hidden_size is not None else
num_heads * head_size` (source lines 247-248). -/
def BertSelfAttention.init (num_heads head_size batch_size : ℕ) (attention_dropout : ℚ)
    (use_bias : Bool) (key_size hidden_size : Option ℕ) : BertSelfAttention :=
  ⟨num_heads, head_size, batch_size, attention_dropout, use_bias,
    key_size.getD head_size, hidden_size.getD (num_heads * head_size)⟩

/-- Output shape of `keras.layers.Dense(units=u)` on an input shape: the last
dimension becomes `u`. -/
def denseShape (units : ℕ) (s : List ℕ) : List ℕ := s.dropLast ++ [units]

/-- Modelled from `tf.reshape` with target shape `(d0, -1, d2, d3)` (external
to this repository): the `-1` dimension is inferred, and the known dimensions
must be non-zero and divide the element count, otherwise the op fails. -/
def reshape4 (d0 d2 d3 : ℕ) (s : List ℕ) : Option (List ℕ) :=
  if 0 < d0 * d2 * d3 ∧ (d0 * d2 * d3) ∣ s.prod then
    some [d0, s.prod / (d0 * d2 * d3), d2, d3]
  else none

/-- Shape effect of `tf.transpose(•, perm=[0, 2, 1, 3])` on a rank-4 shape. -/
def transpose0213 : List ℕ → List ℕ
  | [a, b, c, d] => [a, c, b, d]
  | s => s

/-- Shape effect of `BertSelfAttention.transpose_for_scores` (source lines
262-268): `tf.reshape(•, (batch_size, -1, num_heads, head_size))` followed by
`tf.transpose(•, perm=[0, 2, 1, 3])`. -/
def BertSelfAttention.transpose_for_scores (self : BertSelfAttention) (head_size : ℕ)
    (s : List ℕ) : Option (List ℕ) :=
  (reshape4 self.batch_size self.num_heads head_size s).map transpose0213

/-- Shape effect of the projection/split part of `BertSelfAttention.call`
(source lines 271-279): `query`/`key` go through a Dense of
`key_size * num_heads` units and are split with per-head size `key_size`;
`value` goes through a Dense of `head_size * num_heads` units and is split with
per-head size `head_size`. -/
def BertSelfAttention.callShapes (self : BertSelfAttention) (q k v : List ℕ) :
    Option (List ℕ) × Option (List ℕ) × Option (List ℕ) :=
  (self.transpose_for_scores self.key_size (denseShape (self.key_size * self.num_heads) q),
   self.transpose_for_scores self.key_size (denseShape (self.key_size * self.num_heads) k),
   self.transpose_for_scores self.head_size (denseShape (self.head_size * self.num_heads) v))

/-! ## `sim/tensorflow/layers.py`: `BertOutput` -/

/-- The three output-head flags of `BertOutput` (source lines 315-324). -/
structure BertOutputFlags where
  with_pool : Bool
  with_nsp : Bool
  with_mlm : Bool
  deriving DecidableEq, Repr

/-- `BertOutput.call` (`sim/tensorflow/layers.py` lines 374-391), with the
keras sublayers abstracted as functions on an arbitrary tensor type `τ`. The
body fills the local list `outputs` — the pooled (and, under `with_nsp`,
NSP-classified) vector when `with_pool` is set, then the MLM pipeline output
when `with_mlm` is set — but ends without a `return` statement, so the Python
call returns `None`. The first component is the function's return value, the
second the local `outputs` list the body built and then discarded. -/
def BertOutput.call {τ : Type u} (flags : BertOutputFlags)
    (pooler pooler_dense nsp_prob mlm_dense mlm_norm token_embeddings mlm_bias mlm_act : τ → τ)
    (inputs : τ) : Option (List τ) × List τ :=
  let outputs : List τ := []
  let outputs :=
    if flags.with_pool then
      let sub_outputs := pooler inputs
      let sub_outputs := pooler_dense sub_outputs
      let sub_outputs := if flags.with_nsp then nsp_prob sub_outputs else sub_outputs
      outputs ++ [sub_outputs]
    else outputs
  let outputs :=
    if flags.with_mlm then
      let sub_outputs := mlm_dense inputs
      let sub_outputs := mlm_norm sub_outputs
      let sub_outputs := token_embeddings sub_outputs
      let sub_outputs := mlm_bias sub_outputs
      let sub_outputs := mlm_act sub_outputs
      outputs ++ [sub_outputs]
    else outputs
  (none, outputs)

/-! ## List-indexing helper lemmas -/

theorem getElem?_map_eq {α β : Type u} (f : α → β) :
    ∀ (l : List α) (i : ℕ), (l.map f)[i]? = (l[i]?).map f
  | [], i => by cases i <;> simp
  | a :: l, 0 => by simp
  | a :: l, i + 1 => by
      simp only [List.map_cons, List.getElem?_cons_succ]
      exact getElem?_map_eq f l i

theorem getElem?_zipWith_eq {α β γ : Type u} (f : α → β → γ) :
    ∀ (a : List α) (b : List β) (i : ℕ),
      (List.zipWith f a b)[i]? = (a[i]?).bind (fun x => (b[i]?).map (fun y => f x y))
  | [], b, i => by cases i <;> simp
  | a :: as, [], i => by cases i <;> simp
  | a :: as, b :: bs, 0 => by simp
  | a :: as, b :: bs, i + 1 => by simpa using getElem?_zipWith_eq f as bs i

theorem getElem?_take_eq {α : Type u} :
    ∀ (l : List α) (n i : ℕ), i < n → (l.take n)[i]? = l[i]?
  | [], n, i, _ => by cases i <;> simp
  | a :: l, n + 1, 0, _ => by simp
  | a :: l, n + 1, i + 1, h => by
      simp only [List.take_succ_cons, List.getElem?_cons_succ]
      exact getElem?_take_eq l n i (Nat.lt_of_succ_lt_succ h)

theorem getElem?_replicate_eq {α : Type u} (a : α) :
    ∀ (n i : ℕ), i < n → (List.replicate n a)[i]? = some a
  | n + 1, 0, _ => by simp
  | n + 1, i + 1, h => by
      simpa [List.replicate_succ] using getElem?_replicate_eq a n i (Nat.lt_of_succ_lt_succ h)

theorem lt_length_of_getElem?_some {α : Type u} :
    ∀ (l : List α) (i : ℕ) (a : α), l[i]? = some a → i < l.length
  | [], i, a, h => by cases i <;> simp at h
  | x :: l, 0, a, _ => Nat.succ_pos _
  | x :: l, i + 1, a, h => by
      have := lt_length_of_getElem?_some l i a (by simpa using h)
      simpa using Nat.succ_lt_succ this

theorem getElem?_eq_some_getD {α : Type u} :
    ∀ (l : List α) (i : ℕ) (d : α), i < l.length → l[i]? = some (l.getD i d)
  | [], i, d, h => by simp at h
  | a :: l, 0, d, _ => by simp
  | a :: l, i + 1, d, h => by
      simpa using getElem?_eq_some_getD l i d (by simpa using Nat.lt_of_succ_lt_succ h)

/-! ## C1 — `BertOutput.call` and its missing return -/

/-- C1: the claim says `BertOutput.call` returns the list of task outputs; the
source body (`sim/tensorflow/layers.py` lines 374-391) builds that list but ends
without a `return` statement, so the call returns `None` for every flag
configuration. Evaluated at a concrete input with `with_pool` and `with_mlm`
both set: the discarded local list holds exactly the pooled output followed by
the MLM output, while the function's value is `None`. -/
theorem bertOutput_call_discards_task_outputs :
    (BertOutput.call (τ := ℤ) ⟨true, false, true⟩ (fun x => x - 1) (fun x => 2 * x)
        (fun x => x + 100) (fun x => x + 1) (fun x => x * 3) (fun x => x - 2)
        (fun x => x + 7) (fun x => x / 2) 10).1 = none ∧
    (BertOutput.call (τ := ℤ) ⟨true, false, true⟩ (fun x => x - 1) (fun x => 2 * x)
        (fun x => x + 100) (fun x => x + 1) (fun x => x * 3) (fun x => x - 2)
        (fun x => x + 7) (fun x => x / 2) 10).2 = [18, 19] := by
  constructor
  · rfl
  · decide

/-! ## C2 — `get_model_config` on an absent file -/

/-- C2 counterexample: the claim says `get_model_config` returns the empty
mapping and raises no error when the file at `config_path` is absent; the code
(`sim/tools/tools.py` lines 187-188) raises `FileNotFoundError` before the
swallowing `try` block is ever entered. -/
theorem get_model_config_absent_raises :
    get_model_config "my-model" ConfigFile.absent = Except.error PyErr.fileNotFound ∧
    get_model_config "my-model" ConfigFile.absent ≠ Except.ok [] := by
  constructor
  · rfl
  · intro h
    exact Except.noConfusion h

/-- C2 amended: `get_model_config` raises `FileNotFoundError` exactly when the
file is absent; when the file exists it returns the empty mapping if the file
is unreadable/unparseable (including size 0) or lacks the key, and the stored
dict otherwise. -/
theorem get_model_config_amended (key : String) (f : ConfigFile) :
    (get_model_config key f = Except.error PyErr.fileNotFound ↔ f = ConfigFile.absent) ∧
    ((f = ConfigFile.empty ∨ f = ConfigFile.corrupt) → get_model_config key f = Except.ok []) ∧
    (∀ es, f = ConfigFile.entries es → lookupKey key es = none →
      get_model_config key f = Except.ok []) ∧
    (∀ es m, f = ConfigFile.entries es → lookupKey key es = some m →
      get_model_config key f = Except.ok m) := by
  refine ⟨?_, ?_, ?_, ?_⟩
  · cases f <;> simp [get_model_config]
  · rintro (rfl | rfl) <;> rfl
  · rintro es rfl hnone
    simp [get_model_config, hnone]
  · rintro es m rfl hsome
    simp [get_model_config, hsome]

/-- Witness for the amended C2 theorem at concrete inputs. -/
theorem get_model_config_amended_witness :
    lookupKey "absent-key" [("other", [("a", Value.vInt 1)])] =
      (none : Option (List (String × Value))) ∧
    get_model_config "absent-key" (ConfigFile.entries [("other", [("a", Value.vInt 1)])]) =
      Except.ok [] :=
  ⟨by decide,
    (get_model_config_amended "absent-key"
      (ConfigFile.entries [("other", [("a", Value.vInt 1)])])).2.2.1
      [("other", [("a", Value.vInt 1)])] rfl (by decide)⟩

/-! ## C3 — hierarchical position decomposition -/

/-- C3: with hierarchical decomposition enabled (factor `alpha`, 0.4 for
`True`, else the supplied number), the embedding of position `p` equals
`alpha * E'[p // input_dim] + (1 - alpha) * E'[p mod input_dim]` with
`E' = (E - alpha * E[0]) / (1 - alpha)`, and for every
`p ≤ input_dim ^ 2 - 1` both lookup indices lie in `[0, input_dim)`, so the
gather cannot fail. -/
theorem positionEmbedding_hierarchical_decomposition (pe : PositionEmbedding)
    (E : List (List ℚ)) (p : ℕ)
    (htr : pe.hierarchical.truthy = true)
    (hE : E.length = pe.input_dim)
    (hd : 0 < pe.input_dim)
    (hp : p ≤ pe.input_dim ^ 2 - 1) :
    p / pe.input_dim < pe.input_dim ∧ p % pe.input_dim < pe.input_dim ∧
    pe.posEmbedding E p =
      some (vadd
        (smul pe.hierarchical.alphaOf
          (hierSpecRow pe.hierarchical.alphaOf E (p / pe.input_dim)))
        (smul (1 - pe.hierarchical.alphaOf)
          (hierSpecRow pe.hierarchical.alphaOf E (p % pe.input_dim)))) := by
  obtain ⟨m, hm⟩ : ∃ m, pe.input_dim * pe.input_dim = m := ⟨_, rfl⟩
  have hsq : pe.input_dim ^ 2 = m := by rw [← hm]; ring
  rw [hsq] at hp
  have hpos : 0 < m := hm ▸ Nat.mul_pos hd hd
  have hp2 : p < pe.input_dim * pe.input_dim := by rw [hm]; omega
  have hdiv : p / pe.input_dim < pe.input_dim := (Nat.div_lt_iff_lt_mul hd).mpr hp2
  have hmod : p % pe.input_dim < pe.input_dim := Nat.mod_lt p hd
  refine ⟨hdiv, hmod, ?_⟩
  have hx : ∀ i : ℕ, i < pe.input_dim →
      (E.map (fun row => vdiv (vsub row (smul pe.hierarchical.alphaOf (E.headD [])))
        (1 - pe.hierarchical.alphaOf)))[i]? =
      some (hierSpecRow pe.hierarchical.alphaOf E i) := by
    intro i hi
    rw [getElem?_map_eq]
    rw [getElem?_eq_some_getD E i [] (hE ▸ hi)]
    rfl
  simp only [PositionEmbedding.posEmbedding, htr, if_true]
  rw [hx _ hdiv, hx _ hmod]

/-- Witness for C3: `input_dim = 2`, table `[[1], [2]]`, `hierarchical = True`,
position `p = 3 = input_dim ^ 2 - 1`. -/
theorem positionEmbedding_hierarchical_witness :
    (3 : ℕ) ≤ 2 ^ 2 - 1 ∧
    (⟨2, 1, "add", Hierarchical.tru, true⟩ : PositionEmbedding).posEmbedding [[1], [2]] 3 =
      some (vadd
        (smul (Hierarchical.tru.alphaOf) (hierSpecRow (Hierarchical.tru.alphaOf) [[1], [2]] (3 / 2)))
        (smul (1 - Hierarchical.tru.alphaOf)
          (hierSpecRow (Hierarchical.tru.alphaOf) [[1], [2]] (3 % 2)))) :=
  ⟨by decide,
    (positionEmbedding_hierarchical_decomposition ⟨2, 1, "add", Hierarchical.tru, true⟩
      [[1], [2]] 3 rfl rfl (by decide) (by decide)).2.2⟩

/-! ## C4 — `BertSelfAttention` defaults and projection shapes -/

/-- `tf.reshape(•, (b, -1, nh, k))` on a `(b, S, k * nh)` tensor infers the
`-1` dimension as `S`. -/
theorem reshape4_eval (b nh k S : ℕ) (hpos : 0 < b * nh * k) :
    reshape4 b nh k [b, S, k * nh] = some [b, S, nh, k] := by
  have hprod : ([b, S, k * nh] : List ℕ).prod = (b * nh * k) * S := by
    simp [List.prod_cons]
    ring
  unfold reshape4
  rw [hprod]
  rw [if_pos ⟨hpos, dvd_mul_right _ _⟩]
  rw [Nat.mul_div_cancel_left _ hpos]

/-- C4: after `__init__`, `key_size` defaults to `head_size` and `hidden_size`
to `num_heads * head_size` unless explicitly overridden; on `call`, the
`query`/`key` projections have last dimension `key_size * num_heads` and the
`value` projection `head_size * num_heads`, and `transpose_for_scores` turns
each `(batch, seq, units)` projection into `(batch, num_heads, seq,
per_head_dim)` with `per_head_dim = key_size` for `query`/`key` and
`head_size` for `value`. -/
theorem bertSelfAttention_defaults_and_shapes (num_heads head_size batch_size : ℕ)
    (attention_dropout : ℚ) (use_bias : Bool) (key_size hidden_size : Option ℕ)
    (S d1 d2 d3 : ℕ)
    (hh : 0 < num_heads) (hv : 0 < head_size) (hk : 0 < key_size.getD head_size)
    (hb : 0 < batch_size) :
    (BertSelfAttention.init num_heads head_size batch_size attention_dropout use_bias
        key_size hidden_size).key_size = key_size.getD head_size ∧
    (BertSelfAttention.init num_heads head_size batch_size attention_dropout use_bias
        key_size hidden_size).hidden_size = hidden_size.getD (num_heads * head_size) ∧
    denseShape (key_size.getD head_size * num_heads) [batch_size, S, d1] =
      [batch_size, S, key_size.getD head_size * num_heads] ∧
    denseShape (head_size * num_heads) [batch_size, S, d3] =
      [batch_size, S, head_size * num_heads] ∧
    (BertSelfAttention.init num_heads head_size batch_size attention_dropout use_bias
        key_size hidden_size).callShapes
        [batch_size, S, d1] [batch_size, S, d2] [batch_size, S, d3] =
      (some [batch_size, num_heads, S, key_size.getD head_size],
       some [batch_size, num_heads, S, key_size.getD head_size],
       some [batch_size, num_heads, S, head_size]) := by
  refine ⟨rfl, rfl, rfl, rfl, ?_⟩
  have pos1 : 0 < batch_size * num_heads * key_size.getD head_size :=
    Nat.mul_pos (Nat.mul_pos hb hh) hk
  have pos2 : 0 < batch_size * num_heads * head_size :=
    Nat.mul_pos (Nat.mul_pos hb hh) hv
  have e1 := reshape4_eval batch_size num_heads (key_size.getD head_size) S pos1
  have e2 := reshape4_eval batch_size num_heads head_size S pos2
  simp only [BertSelfAttention.callShapes, BertSelfAttention.transpose_for_scores,
    BertSelfAttention.init, denseShape, List.dropLast, List.append_eq]
  rw [show ([batch_size, S] : List ℕ) ++ [key_size.getD head_size * num_heads] =
    [batch_size, S, key_size.getD head_size * num_heads] from rfl]
  rw [show ([batch_size, S] : List ℕ) ++ [head_size * num_heads] =
    [batch_size, S, head_size * num_heads] from rfl]
  rw [e1, e2]
  rfl

/-- Witness for C4: two heads of value size 3, default `key_size`, overridden
`hidden_size`, batch 4, sequence length 5. -/
theorem bertSelfAttention_defaults_and_shapes_witness :
    (0 : ℕ) < 2 ∧ (0 : ℕ) < 3 ∧
    (BertSelfAttention.init 2 3 4 0 true none (some 11)).callShapes
        [4, 5, 7] [4, 5, 7] [4, 5, 7] =
      (some [4, 2, 5, 3], some [4, 2, 5, 3], some [4, 2, 5, 3]) :=
  ⟨by decide, by decide,
    (bertSelfAttention_defaults_and_shapes 2 3 4 0 true none (some 11) 5 7 7 7
      (by decide) (by decide) (by decide) (by decide)).2.2.2.2⟩

/-! ## C5 — `BertConfig` JSON round trip -/

set_option maxRecDepth 8000

/-- C5: for every `BertConfig` instance — an attribute dict holding at least
the eleven `__init__` attributes, possibly with extra fields merged in from a
dict — serializing with `to_json_string`, parsing the JSON and rebuilding with
`BertConfig.from_dict` reproduces every field with an equal value; and the JSON
string itself uses sorted keys and 2-space indentation (shown on the spec's
example instance `vocab_size=21128` with all other fields at their defaults). -/
theorem bertConfig_json_roundtrip (d : List (String × Value))
    (hnd : (d.map Prod.fst).Nodup)
    (hk : ∀ k ∈ BertConfig.base.map Prod.fst, k ∈ d.map Prod.fst) :
    (∀ k, lookupKey k (BertConfig.from_dict (json_loads_of_dumps d)) = lookupKey k d) ∧
    BertConfig.to_json_string (BertConfig.from_dict [("vocab_size", Value.vInt 21128)]) =
      "\x7b\n  \"attention_prob_dropout_prob\": 0.1,\n  \"hidden_act\": \"gelu\",\n  \"hidden_dropout_prob\": 0.1,\n  \"hidden_size\": 768,\n  \"initializer_range\": 0.02,\n  \"intermediate_size\": 3072,\n  \"max_position_embeddings\": 512,\n  \"num_attention_heads\": 12,\n  \"num_hidden_layers\": 12,\n  \"type_vocab_size\": 2,\n  \"vocab_size\": 21128\n\x7d" := by
  constructor
  · intro k
    have hperm : (sortByKey strLe d).Perm d := sortByKey_perm strLe d
    have hnd' : ((sortByKey strLe d).map Prod.fst).Nodup :=
      ((hperm.map Prod.fst).nodup_iff).mpr hnd
    rw [json_loads_of_dumps, BertConfig.from_dict]
    rw [lookupKey_foldl_setKey _ _ hnd' k]
    rw [lookupKey_of_perm hperm hnd' k]
    cases hcase : lookupKey k d with
    | some v => simp [orO]
    | none =>
      simp only [orO]
      have hkd : k ∉ d.map Prod.fst := (lookupKey_eq_none_iff d k).mp hcase
      have hkb : k ∉ BertConfig.base.map Prod.fst := fun hmem => hkd (hk k hmem)
      exact (lookupKey_eq_none_iff _ k).mpr hkb
  · decide

/-- Witness for C5 at a concrete instance: the default config with
`vocab_size = 21128` plus one unknown extra field. -/
theorem bertConfig_json_roundtrip_witness :
    ((setKey BertConfig.base "vocab_size" (Value.vInt 21128) ++
        [("extra_field", Value.vStr "x")]).map Prod.fst).Nodup ∧
    lookupKey "extra_field"
      (BertConfig.from_dict (json_loads_of_dumps
        (setKey BertConfig.base "vocab_size" (Value.vInt 21128) ++
          [("extra_field", Value.vStr "x")]))) =
      lookupKey "extra_field"
        (setKey BertConfig.base "vocab_size" (Value.vInt 21128) ++
          [("extra_field", Value.vStr "x")]) :=
  ⟨by decide,
    (bertConfig_json_roundtrip
      (setKey BertConfig.base "vocab_size" (Value.vInt 21128) ++
        [("extra_field", Value.vStr "x")])
      (by decide) (by decide)).1 "extra_field"⟩

/-! ## C6 — `PositionEmbedding` merge modes -/

/-- C6: with merge mode `"add"` the call returns the elementwise sum of input
and position embedding, with `"mul"` the elementwise `input * (embedding + 1)`,
with `"zero"` the embedding alone (the input is discarded), and with any other
mode the last-axis concatenation of input and embedding, the embedding having
been tiled across the batch dimension first. Stated pointwise for the row of
batch index `b` and sequence position `s`. -/
theorem positionEmbedding_merge_modes (pe : PositionEmbedding) (E : List (List ℚ))
    (inputs : List (List (List ℚ))) (b s : ℕ) (r e : List ℚ)
    (hr : row3 inputs b s = some r)
    (he : E[s]? = some e)
    (hs : s < (inputs.headD []).length) :
    (pe.merge_mode = "add" →
      row3 (pe.call E inputs) b s = some (List.zipWith (· + ·) r e)) ∧
    (pe.merge_mode = "mul" →
      row3 (pe.call E inputs) b s =
        some (List.zipWith (· * ·) r (e.map (fun x => x + 1)))) ∧
    (pe.merge_mode = "zero" →
      pe.call E inputs = [E.take ((inputs.headD []).length)]) ∧
    (pe.merge_mode ≠ "add" → pe.merge_mode ≠ "mul" → pe.merge_mode ≠ "zero" →
      row3 (pe.call E inputs) b s = some (r ++ e)) := by
  obtain ⟨m, hm, hms⟩ : ∃ m, inputs[b]? = some m ∧ m[s]? = some r := by
    unfold row3 at hr
    cases hmb : inputs[b]? with
    | none => rw [hmb] at hr; exact absurd hr (by simp)
    | some mm =>
        rw [hmb] at hr
        exact ⟨mm, rfl, by simpa using hr⟩
  have hb : b < inputs.length := lt_length_of_getElem?_some inputs b m hm
  have hemb : (E.take ((inputs.headD []).length))[s]? = some e := by
    rw [getElem?_take_eq E _ s hs]; exact he
  refine ⟨?_, ?_, ?_, ?_⟩
  · intro hmode
    unfold PositionEmbedding.call row3
    rw [hmode]
    rw [if_pos rfl]
    rw [getElem?_map_eq, hm]
    simp only [Option.map_some', Option.some_bind]
    rw [getElem?_zipWith_eq, hms, hemb]
    rfl
  · intro hmode
    unfold PositionEmbedding.call row3
    rw [hmode]
    rw [if_neg (by decide), if_pos rfl]
    rw [getElem?_map_eq, hm]
    simp only [Option.map_some', Option.some_bind]
    rw [getElem?_zipWith_eq, hms]
    rw [getElem?_map_eq, hemb]
    rfl
  · intro hmode
    unfold PositionEmbedding.call
    rw [hmode]
    rw [if_neg (by decide), if_neg (by decide), if_pos rfl]
  · intro h1 h2 h3
    unfold PositionEmbedding.call row3
    rw [if_neg h1, if_neg h2, if_neg h3]
    rw [getElem?_zipWith_eq, hm]
    rw [getElem?_replicate_eq _ _ _ hb]
    simp only [Option.map_some', Option.some_bind]
    rw [getElem?_zipWith_eq, hms, hemb]
    rfl

/-- Witness for C6: merge mode `"add"`, batch 2, sequence length 2, at batch
index 1 and position 1. -/
theorem positionEmbedding_merge_modes_witness :
    row3 [[[1, 2], [3, 4]], [[10, 20], [30, 40]]] 1 1 = some [30, 40] ∧
    row3 ((⟨4, 2, "add", Hierarchical.off, false⟩ : PositionEmbedding).call
        [[5, 6], [7, 8], [9, 10], [11, 12]] [[[1, 2], [3, 4]], [[10, 20], [30, 40]]]) 1 1 =
      some (List.zipWith (· + ·) [30, 40] [7, 8]) :=
  ⟨by decide,
    (positionEmbedding_merge_modes ⟨4, 2, "add", Hierarchical.off, false⟩
      [[5, 6], [7, 8], [9, 10], [11, 12]] [[[1, 2], [3, 4]], [[10, 20], [30, 40]]] 1 1
      [30, 40] [7, 8] (by decide) (by decide) (by decide)).1 rfl⟩

/-! ## C7 — `save_model_config` overwrite semantics -/

/-- On every non-`corrupt` file state, `save_model_config` reaches the write:
it returns `True`, stores the stamped config under `key`, and leaves the
mutated argument behind. -/
theorem save_model_config_step (key : String) (g : ConfigFile)
    (hg : g ≠ ConfigFile.corrupt) (ds : String) (cs : List (String × Value))
    (ts : DateTime) :
    save_model_config key ds cs ts g =
      (true,
       ConfigFile.entries (setKey g.entriesOf key
         (setKey (setKey cs "execute_time" (Value.vStr (strftimeYmdHMS ts)))
           "model_desc" (Value.vStr ds))),
       setKey (setKey cs "execute_time" (Value.vStr (strftimeYmdHMS ts)))
         "model_desc" (Value.vStr ds)) := by
  cases g with
  | corrupt => exact absurd rfl hg
  | absent => rfl
  | empty => rfl
  | entries es => rfl

/-- C7: calling `save_model_config` twice with the same key leaves the JSON
file with exactly one entry for that key, holding the second config
(overwrite, not duplicate); the written entry carries the execution timestamp
`YYYY-MM-DD HH:MM:SS` and the description string; entries under other keys are
preserved; and the function returns `True` on success and `False` when an
exception occurs (e.g. an unparseable existing file). -/
theorem save_model_config_overwrites (key d1 d2 : String)
    (c1 c2 : List (String × Value)) (t1 t2 : DateTime) (f : ConfigFile)
    (hf : f ≠ ConfigFile.corrupt)
    (hnd : (f.entriesOf.map Prod.fst).Nodup) :
    (save_model_config key d1 c1 t1 f).1 = true ∧
    (save_model_config key d2 c2 t2 (save_model_config key d1 c1 t1 f).2.1).1 = true ∧
    countKey key
      ((save_model_config key d2 c2 t2 (save_model_config key d1 c1 t1 f).2.1).2.1.entriesOf)
      = 1 ∧
    lookupKey key
      ((save_model_config key d2 c2 t2 (save_model_config key d1 c1 t1 f).2.1).2.1.entriesOf)
      = some (setKey (setKey c2 "execute_time" (Value.vStr (strftimeYmdHMS t2)))
          "model_desc" (Value.vStr d2)) ∧
    (∀ k, k ≠ key →
      lookupKey k
        ((save_model_config key d2 c2 t2 (save_model_config key d1 c1 t1 f).2.1).2.1.entriesOf)
        = lookupKey k f.entriesOf) ∧
    lookupKey "execute_time"
      (setKey (setKey c2 "execute_time" (Value.vStr (strftimeYmdHMS t2)))
        "model_desc" (Value.vStr d2)) = some (Value.vStr (strftimeYmdHMS t2)) ∧
    lookupKey "model_desc"
      (setKey (setKey c2 "execute_time" (Value.vStr (strftimeYmdHMS t2)))
        "model_desc" (Value.vStr d2)) = some (Value.vStr d2) ∧
    (strftimeYmdHMS t2).length = 19 ∧
    (strftimeYmdHMS t2).data[4]? = some '-' ∧
    (strftimeYmdHMS t2).data[7]? = some '-' ∧
    (strftimeYmdHMS t2).data[10]? = some ' ' ∧
    (strftimeYmdHMS t2).data[13]? = some ':' ∧
    (strftimeYmdHMS t2).data[16]? = some ':' ∧
    (save_model_config key d1 c1 t1 ConfigFile.corrupt).1 = false := by
  rw [save_model_config_step key f hf d1 c1 t1]
  rw [save_model_config_step key (ConfigFile.entries (setKey f.entriesOf key
    (setKey (setKey c1 "execute_time" (Value.vStr (strftimeYmdHMS t1)))
      "model_desc" (Value.vStr d1)))) (by intro h; exact ConfigFile.noConfusion h) d2 c2 t2]
  dsimp only [ConfigFile.entriesOf]
  refine ⟨rfl, rfl, ?_, ?_, ?_, ?_, ?_, rfl, rfl, rfl, rfl, rfl, rfl, rfl⟩
  · exact countKey_setKey_self _ key _ (nodup_map_fst_setKey _ key _ hnd)
  · exact lookupKey_setKey_self _ key _
  · intro k hk
    rw [lookupKey_setKey_ne _ _ _ _ (fun h => hk h.symm)]
    exact lookupKey_setKey_ne _ _ _ _ (fun h => hk h.symm)
  · rw [lookupKey_setKey_ne _ _ _ _ (by decide)]
    exact lookupKey_setKey_self _ _ _
  · exact lookupKey_setKey_self _ _ _

/-- Witness for C7 at concrete inputs: an existing file with one other entry,
two saves under the key `"job"`. -/
theorem save_model_config_overwrites_witness :
    ((ConfigFile.entries [("old", [("a", Value.vInt 1)])]).entriesOf.map Prod.fst).Nodup ∧
    countKey "job"
      ((save_model_config "job" "second run" [("p", Value.vInt 2)] ⟨2026, 10, 12, 3, 4, 5⟩
        (save_model_config "job" "first run" [("p", Value.vInt 1)] ⟨2026, 10, 11, 1, 2, 3⟩
          (ConfigFile.entries [("old", [("a", Value.vInt 1)])])).2.1).2.1.entriesOf) = 1 :=
  ⟨by decide,
    (save_model_config_overwrites "job" "first run" "second run"
      [("p", Value.vInt 1)] [("p", Value.vInt 2)] ⟨2026, 10, 11, 1, 2, 3⟩
      ⟨2026, 10, 12, 3, 4, 5⟩ (ConfigFile.entries [("old", [("a", Value.vInt 1)])])
      (by intro h; exact ConfigFile.noConfusion h) (by decide)).2.2.1⟩

/-! ## C10 — `save_model_config` mutates its argument -/

/-- C10: a successful `save_model_config` call mutates the caller's
`model_config` dict in place: afterwards it holds `"execute_time"` (the
formatted current time) and `"model_desc"` (the description), overwriting any
values the caller had stored under those keys, while every other key keeps its
value. -/
theorem save_model_config_mutates_argument (key desc : String)
    (cfg : List (String × Value)) (t : DateTime) (f : ConfigFile)
    (hf : f ≠ ConfigFile.corrupt) :
    (save_model_config key desc cfg t f).1 = true ∧
    lookupKey "execute_time" (save_model_config key desc cfg t f).2.2 =
      some (Value.vStr (strftimeYmdHMS t)) ∧
    lookupKey "model_desc" (save_model_config key desc cfg t f).2.2 =
      some (Value.vStr desc) ∧
    (∀ k, k ≠ "execute_time" → k ≠ "model_desc" →
      lookupKey k (save_model_config key desc cfg t f).2.2 = lookupKey k cfg) := by
  rw [save_model_config_step key f hf desc cfg t]
  refine ⟨rfl, ?_, ?_, ?_⟩
  · rw [lookupKey_setKey_ne _ _ _ _ (by decide)]
    exact lookupKey_setKey_self _ _ _
  · exact lookupKey_setKey_self _ _ _
  · intro k h1 h2
    rw [lookupKey_setKey_ne _ _ _ _ (fun h => h2 h.symm)]
    exact lookupKey_setKey_ne _ _ _ _ (fun h => h1 h.symm)

/-- Witness for C10: the caller's dict already holds a stale `"model_desc"`,
which the call overwrites. -/
theorem save_model_config_mutates_argument_witness :
    (ConfigFile.absent ≠ ConfigFile.corrupt) ∧
    lookupKey "model_desc"
      (save_model_config "job" "fresh desc" [("model_desc", Value.vStr "stale"),
        ("lr", Value.vInt 3)] ⟨2026, 10, 12, 3, 4, 5⟩ ConfigFile.absent).2.2 =
      some (Value.vStr "fresh desc") :=
  ⟨by intro h; exact ConfigFile.noConfusion h,
    (save_model_config_mutates_argument "job" "fresh desc"
      [("model_desc", Value.vStr "stale"), ("lr", Value.vInt 3)]
      ⟨2026, 10, 12, 3, 4, 5⟩ ConfigFile.absent
      (by intro h; exact ConfigFile.noConfusion h)).2.2.1⟩

/-! ## C8 — `get_logger` path validation -/

/-- C8 counterexample: the claim says every `file_path` not ending in `".log"`
makes `get_logger` raise `ValueError` immediately. The empty path does not end
in `".log"`, yet the truthiness test `if file_path and not
file_path.endswith(".log")` (`sim/tools/tools.py` line 136) skips the check for
it; the call then fails later inside `os.mkdir` with `FileNotFoundError`, not
`ValueError`. -/
theorem get_logger_empty_path_no_valueError :
    strEndsWith "" ".log" = false ∧
    get_logger "n" "" 20 "a+" "utf-8" "%(message)s" ⟨[], []⟩ =
      (Except.error PyErr.fileNotFound, ⟨[], []⟩) ∧
    get_logger "n" "" 20 "a+" "utf-8" "%(message)s" ⟨[], []⟩ ≠
      (Except.error PyErr.valueError, ⟨[], []⟩) := by
  refine ⟨by decide, rfl, ?_⟩
  intro h
  rw [show get_logger "n" "" 20 "a+" "utf-8" "%(message)s" ⟨[], []⟩ =
    (Except.error PyErr.fileNotFound, (⟨[], []⟩ : LogWorld)) from rfl] at h
  have h1 := congrArg Prod.fst h
  injection h1 with h2
  exact PyErr.noConfusion h2

/-- C8 amended: for every **non-empty** `file_path` that does not end in
`".log"`, `get_logger` raises `ValueError` immediately, before creating any
directory, logger or handler (the returned world is the input world,
unchanged). -/
theorem get_logger_rejects_non_log_path (name file_path : String) (level : ℕ)
    (mode encoding fmt : String) (w : LogWorld)
    (h1 : file_path ≠ "") (h2 : strEndsWith file_path ".log" = false) :
    get_logger name file_path level mode encoding fmt w =
      (Except.error PyErr.valueError, w) := by
  unfold get_logger
  rw [if_pos ⟨h1, h2⟩]

/-- Witness for the amended C8 theorem: `file_path = "x.txt"`. -/
theorem get_logger_rejects_non_log_path_witness :
    ("x.txt" ≠ "") ∧ strEndsWith "x.txt" ".log" = false ∧
    get_logger "n" "x.txt" 20 "a+" "utf-8" "%(message)s" ⟨["logs"], []⟩ =
      (Except.error PyErr.valueError, ⟨["logs"], []⟩) :=
  ⟨by decide, by decide,
    get_logger_rejects_non_log_path "n" "x.txt" 20 "a+" "utf-8" "%(message)s"
      ⟨["logs"], []⟩ (by decide) (by decide)⟩

/-! ## C9 — `get_logger` handler deduplication -/

/-- The logger built by the registry/handler body always carries at least one
handler, and running the body twice is idempotent: the second run finds the
stored logger, whose handler list is non-empty, and attaches nothing new. -/
theorem getLoggerCore_idempotent (name file_path : String) (level : ℕ)
    (mode encoding fmt : String) (w : LogWorld) :
    (loggerAfter name file_path level mode encoding fmt w).handlers ≠ [] ∧
    getLoggerCore name file_path level mode encoding fmt
        (getLoggerCore name file_path level mode encoding fmt w).2 =
      getLoggerCore name file_path level mode encoding fmt w := by
  have heta : ∀ w' : LogWorld,
      (⟨level, false, (loggerAfter name file_path level mode encoding fmt w').handlers⟩ :
        LoggerState) = loggerAfter name file_path level mode encoding fmt w' := by
    intro w'
    unfold loggerAfter
    by_cases hH : ((lookupKey name w'.loggers).getD ⟨0, true, []⟩).handlers = []
    · rw [if_pos hH]
    · rw [if_neg hH]
  have hne : (loggerAfter name file_path level mode encoding fmt w).handlers ≠ [] := by
    unfold loggerAfter
    by_cases hH : ((lookupKey name w.loggers).getD ⟨0, true, []⟩).handlers = []
    · rw [if_pos hH]
      simp
    · rw [if_neg hH]
      simpa using hH
  refine ⟨hne, ?_⟩
  have hlook : lookupKey name (getLoggerCore name file_path level mode encoding fmt w).2.loggers =
      some (loggerAfter name file_path level mode encoding fmt w) :=
    lookupKey_setKey_self _ _ _
  have hafter2 : loggerAfter name file_path level mode encoding fmt
      (getLoggerCore name file_path level mode encoding fmt w).2 =
      loggerAfter name file_path level mode encoding fmt w := by
    unfold loggerAfter
    rw [hlook]
    rw [if_neg (by simpa using hne)]
    exact heta w
  calc getLoggerCore name file_path level mode encoding fmt
          (getLoggerCore name file_path level mode encoding fmt w).2
      = (Except.ok (loggerAfter name file_path level mode encoding fmt
            (getLoggerCore name file_path level mode encoding fmt w).2),
          ⟨(getLoggerCore name file_path level mode encoding fmt w).2.dirs,
            setKey (getLoggerCore name file_path level mode encoding fmt w).2.loggers name
              (loggerAfter name file_path level mode encoding fmt
                (getLoggerCore name file_path level mode encoding fmt w).2)⟩) := rfl
    _ = (Except.ok (loggerAfter name file_path level mode encoding fmt w),
          ⟨w.dirs, setKey (setKey w.loggers name
              (loggerAfter name file_path level mode encoding fmt w)) name
            (loggerAfter name file_path level mode encoding fmt w)⟩) := by
          rw [hafter2]
          rfl
    _ = getLoggerCore name file_path level mode encoding fmt w := by
          rw [setKey_setKey_self]
          rfl

/-- C9: when the log directory exists and the path is a valid `.log` path, a
second `get_logger` call with the same name adds no second file handler and
changes nothing: the call is idempotent on the registry, and the logger it
returns (the same one the first call returned) has a non-empty handler list
created once. -/
theorem get_logger_second_call_idempotent (name file_path : String) (level : ℕ)
    (mode encoding fmt : String) (w : LogWorld)
    (hlog : strEndsWith file_path ".log" = true)
    (hdir : dirname file_path ∈ w.dirs) :
    (get_logger name file_path level mode encoding fmt w).1 =
      Except.ok (loggerAfter name file_path level mode encoding fmt w) ∧
    (loggerAfter name file_path level mode encoding fmt w).handlers ≠ [] ∧
    get_logger name file_path level mode encoding fmt
        (get_logger name file_path level mode encoding fmt w).2 =
      get_logger name file_path level mode encoding fmt w := by
  have hc1 : ¬(file_path ≠ "" ∧ strEndsWith file_path ".log" = false) := by
    rintro ⟨-, hh⟩
    rw [hlog] at hh
    exact Bool.noConfusion hh
  have e1 : get_logger name file_path level mode encoding fmt w =
      getLoggerCore name file_path level mode encoding fmt w := by
    unfold get_logger
    rw [if_neg hc1, if_pos hdir]
  have hdir2 : dirname file_path ∈
      (getLoggerCore name file_path level mode encoding fmt w).2.dirs := by
    rw [show (getLoggerCore name file_path level mode encoding fmt w).2.dirs = w.dirs from rfl]
    exact hdir
  have e2 : get_logger name file_path level mode encoding fmt
      (getLoggerCore name file_path level mode encoding fmt w).2 =
      getLoggerCore name file_path level mode encoding fmt
        (getLoggerCore name file_path level mode encoding fmt w).2 := by
    unfold get_logger
    rw [if_neg hc1, if_pos hdir2]
  obtain ⟨hne, hid⟩ := getLoggerCore_idempotent name file_path level mode encoding fmt w
  refine ⟨?_, hne, ?_⟩
  · rw [e1]
    rfl
  · rw [e1, e2, hid]

/-- Witness for C9: logger `"n"`, path `"logs/a.log"`, with directory `"logs"`
already present and an empty registry. -/
theorem get_logger_second_call_idempotent_witness :
    strEndsWith "logs/a.log" ".log" = true ∧
    dirname "logs/a.log" ∈ (["logs"] : List String) ∧
    get_logger "n" "logs/a.log" 20 "a+" "utf-8" "%(message)s"
        (get_logger "n" "logs/a.log" 20 "a+" "utf-8" "%(message)s" ⟨["logs"], []⟩).2 =
      get_logger "n" "logs/a.log" 20 "a+" "utf-8" "%(message)s" ⟨["logs"], []⟩ :=
  ⟨by decide, by decide,
    (get_logger_second_call_idempotent "n" "logs/a.log" 20 "a+" "utf-8" "%(message)s"
      ⟨["logs"], []⟩ (by decide) (by decide)).2.2⟩
